import Mathlib

/-!
Verification development for a VK photo-backup utility (`main.py`).

The development shallowly embeds the program's data model and operations:
the VK API client methods (`status_info`, `replase_status`,
`get_profile_photos`), the duplicate-name resolution logic of the two
upload pipelines (`save_photos_to_yandex_disk`, `save_photos_to_google_drive`),
the JSON manifest serialisation, and the module-level secrets loading.
Library calls (`datetime.fromtimestamp` + `strftime`, `str.replace`,
`file.readline`, `json.dump`/`json.load`) are modelled by executable Lean
functions faithful to their documented behaviour; timestamps are rendered in a
fixed UTC offset (the local-time offset is environment configuration, not part
of the program).
-/

/-- Decimal digits of `n`, most significant first, as characters
(model of Python `str(int)` and the digit core of `strftime` fields).
Fuel-based structural recursion so the kernel can evaluate it; the fuel is
always instantiated with `n` itself, which is sufficient. -/
def natDigitsAux : Nat → Nat → List Char
  | 0, n => [Nat.digitChar (n % 10)]
  | f + 1, n =>
    if n < 10 then [Nat.digitChar n]
    else natDigitsAux f (n / 10) ++ [Nat.digitChar (n % 10)]

/-- Decimal representation of `n` as a list of characters. -/
def natDigits (n : Nat) : List Char := natDigitsAux n n

/-- Reads a digit string back into a number, starting from accumulator `acc`. -/
def digitsValFrom (acc : Nat) (l : List Char) : Nat :=
  l.foldl (fun a c => 10 * a + (c.toNat - 48)) acc

/-- Zero-padding of `n` to width `w` (model of `printf`-style `%0wd`,
as used by `strftime` for `%Y`, `%m`, `%d`, `%H`, `%M`, `%S`). -/
def zpad (w n : Nat) : List Char :=
  List.replicate (w - (natDigits n).length) '0' ++ natDigits n

theorem digitsValFrom_append (acc : Nat) (l₁ l₂ : List Char) :
    digitsValFrom acc (l₁ ++ l₂) = digitsValFrom (digitsValFrom acc l₁) l₂ := by
  simp [digitsValFrom, List.foldl_append]

theorem digitChar_toNat {d : Nat} (h : d < 10) : (Nat.digitChar d).toNat = 48 + d := by
  interval_cases d <;> decide

theorem digitsValFrom_natDigitsAux (f : Nat) :
    ∀ n acc, n ≤ f →
      digitsValFrom acc (natDigitsAux f n) = acc * 10 ^ (natDigitsAux f n).length + n := by
  induction f with
  | zero =>
    intro n acc h
    have hn : n = 0 := Nat.le_zero.mp h
    subst hn
    have h0 : (Nat.digitChar 0).toNat = 48 := by decide
    simp [natDigitsAux, digitsValFrom, h0]
    ring
  | succ f ih =>
    intro n acc h
    by_cases h10 : n < 10
    · simp only [natDigitsAux, if_pos h10]
      simp [digitsValFrom, digitChar_toNat h10]
      omega
    · simp only [natDigitsAux, if_neg h10]
      rw [digitsValFrom_append]
      have hdiv : n / 10 ≤ f := by omega
      rw [ih (n / 10) acc hdiv]
      have hm : n % 10 < 10 := Nat.mod_lt _ (by omega)
      simp [digitsValFrom, digitChar_toNat hm, List.length_append]
      rw [pow_succ]
      have : n = 10 * (n / 10) + n % 10 := (Nat.div_add_mod n 10).symm
      ring_nf
      omega

theorem digitsVal_natDigits (n : Nat) : digitsValFrom 0 (natDigits n) = n := by
  have := digitsValFrom_natDigitsAux n n 0 (Nat.le_refl n)
  simpa [natDigits] using this

theorem digitsValFrom_replicate_zero (k : Nat) :
    digitsValFrom 0 (List.replicate k '0') = 0 := by
  induction k with
  | zero => rfl
  | succ k ih => simpa [digitsValFrom, List.replicate_succ] using ih

theorem digitsVal_zpad (w n : Nat) : digitsValFrom 0 (zpad w n) = n := by
  rw [zpad, digitsValFrom_append, digitsValFrom_replicate_zero, digitsVal_natDigits]

theorem zpad_inj {w n m : Nat} (h : zpad w n = zpad w m) : n = m := by
  have := digitsVal_zpad w n
  rw [h, digitsVal_zpad] at this
  omega

/-- Gregorian leap-year test (as in Python's `calendar`/`datetime`). -/
def isLeap (y : Nat) : Bool := (y % 4 == 0 && y % 100 != 0) || y % 400 == 0

/-- Number of days in year `y`. -/
def yearLen (y : Nat) : Nat := if isLeap y then 366 else 365

/-- Number of days in month `m` (1-12) of a year with leap flag `leap`. -/
def monthLen (leap : Bool) (m : Nat) : Nat :=
  if m = 2 then (if leap then 29 else 28)
  else if m = 4 ∨ m = 6 ∨ m = 9 ∨ m = 11 then 30 else 31

/-- Walks forward from year `y`, consuming `d` remaining days, returning the
year containing day `d` and the day-of-year offset inside it. Fuel-based; the
fuel is always instantiated with a value `≥ d`, which is sufficient since each
step consumes at least 365 days. -/
def findYear : Nat → Nat → Nat → Nat × Nat
  | 0, y, d => (y, d)
  | f + 1, y, d => if d < yearLen y then (y, d) else findYear f (y + 1) (d - yearLen y)

/-- Walks forward from month `m`, consuming `d` remaining days of the year,
returning the month containing the day and the day-of-month offset (0-based). -/
def findMonth : Nat → Nat → Bool → Nat → Nat × Nat
  | 0, m, _, d => (m, d)
  | f + 1, m, leap, d =>
    if d < monthLen leap m then (m, d) else findMonth f (m + 1) leap (d - monthLen leap m)

/-- Converts a count of days since 1970-01-01 to a `(year, month, day)` triple
(civil Gregorian calendar, the conversion performed by `datetime.fromtimestamp`). -/
def daysToYMD (d : Nat) : Nat × Nat × Nat :=
  let yr := findYear d 1970 d
  let mo := findMonth 12 1 (isLeap yr.1) yr.2
  (yr.1, mo.1, mo.2 + 1)

theorem yearLen_ge (y : Nat) : 365 ≤ yearLen y := by
  unfold yearLen; split <;> omega

theorem yearLen_le (y : Nat) : yearLen y ≤ 366 := by
  unfold yearLen; split <;> omega

theorem findYear_fst_ge (f : Nat) : ∀ y d, y ≤ (findYear f y d).1 := by
  induction f with
  | zero => intro y d; simp [findYear]
  | succ f ih =>
    intro y d
    unfold findYear
    split
    · simp
    · exact Nat.le_trans (Nat.le_succ y) (ih (y + 1) (d - yearLen y))

theorem findYear_inj (f : Nat) :
    ∀ y d₁ d₂, findYear f y d₁ = findYear f y d₂ → d₁ = d₂ := by
  induction f with
  | zero =>
    intro y d₁ d₂ h
    simpa [findYear] using congrArg Prod.snd h
  | succ f ih =>
    intro y d₁ d₂ h
    unfold findYear at h
    by_cases h₁ : d₁ < yearLen y <;> by_cases h₂ : d₂ < yearLen y
    · rw [if_pos h₁, if_pos h₂] at h
      simpa using congrArg Prod.snd h
    · rw [if_pos h₁, if_neg h₂] at h
      have := findYear_fst_ge f (y + 1) (d₂ - yearLen y)
      have hy := congrArg Prod.fst h
      simp at hy
      omega
    · rw [if_neg h₁, if_pos h₂] at h
      have := findYear_fst_ge f (y + 1) (d₁ - yearLen y)
      have hy := congrArg Prod.fst h
      simp at hy
      omega
    · rw [if_neg h₁, if_neg h₂] at h
      have := ih (y + 1) (d₁ - yearLen y) (d₂ - yearLen y) h
      have hl := yearLen_ge y
      omega

theorem findYear_fuel_irrel (f : Nat) :
    ∀ g y d, d ≤ f → d ≤ g → findYear f y d = findYear g y d := by
  induction f with
  | zero =>
    intro g y d hf hg
    have hd : d = 0 := Nat.le_zero.mp hf
    subst hd
    cases g with
    | zero => rfl
    | succ g =>
      have : (0 : Nat) < yearLen y := by have := yearLen_ge y; omega
      simp [findYear, this]
  | succ f ih =>
    intro g y d hf hg
    cases g with
    | zero =>
      have hd : d = 0 := Nat.le_zero.mp hg
      subst hd
      have : (0 : Nat) < yearLen y := by have := yearLen_ge y; omega
      simp [findYear, this]
    | succ g =>
      by_cases h : d < yearLen y
      · simp [findYear, h]
      · have hl := yearLen_ge y
        simp only [findYear, if_neg h]
        exact ih g (y + 1) (d - yearLen y) (by omega) (by omega)

theorem findYear_snd_lt (f : Nat) :
    ∀ y d, d ≤ f → (findYear f y d).2 < 366 := by
  induction f with
  | zero =>
    intro y d h
    have hd : d = 0 := Nat.le_zero.mp h
    subst hd
    simp [findYear]
  | succ f ih =>
    intro y d h
    unfold findYear
    split
    · have := yearLen_le y; simp; omega
    · have hl := yearLen_ge y
      exact ih (y + 1) (d - yearLen y) (by omega)

theorem findMonth_fst_ge (f : Nat) : ∀ m l d, m ≤ (findMonth f m l d).1 := by
  induction f with
  | zero => intro m l d; simp [findMonth]
  | succ f ih =>
    intro m l d
    unfold findMonth
    split
    · simp
    · exact Nat.le_trans (Nat.le_succ m) (ih (m + 1) l (d - monthLen l m))

theorem findMonth_fst_le (f : Nat) : ∀ m l d, (findMonth f m l d).1 ≤ m + f := by
  induction f with
  | zero => intro m l d; simp [findMonth]
  | succ f ih =>
    intro m l d
    unfold findMonth
    split
    · omega
    · have := ih (m + 1) l (d - monthLen l m)
      omega

theorem findMonth_inj (f : Nat) :
    ∀ m l d₁ d₂, findMonth f m l d₁ = findMonth f m l d₂ → d₁ = d₂ := by
  induction f with
  | zero =>
    intro m l d₁ d₂ h
    simpa [findMonth] using congrArg Prod.snd h
  | succ f ih =>
    intro m l d₁ d₂ h
    unfold findMonth at h
    by_cases h₁ : d₁ < monthLen l m <;> by_cases h₂ : d₂ < monthLen l m
    · rw [if_pos h₁, if_pos h₂] at h
      simpa using congrArg Prod.snd h
    · rw [if_pos h₁, if_neg h₂] at h
      have := findMonth_fst_ge f (m + 1) l (d₂ - monthLen l m)
      have hm := congrArg Prod.fst h
      simp at hm
      omega
    · rw [if_neg h₁, if_pos h₂] at h
      have := findMonth_fst_ge f (m + 1) l (d₁ - monthLen l m)
      have hm := congrArg Prod.fst h
      simp at hm
      omega
    · rw [if_neg h₁, if_neg h₂] at h
      have := ih (m + 1) l (d₁ - monthLen l m) (d₂ - monthLen l m) h
      omega

set_option maxRecDepth 8192 in
theorem findMonth_day_small :
    ∀ d < 366, ∀ l : Bool, (findMonth 12 1 l d).2 + 1 < 100 := by decide

theorem daysToYMD_inj {a b : Nat} (h : daysToYMD a = daysToYMD b) : a = b := by
  have ha : findYear a 1970 a = findYear (max a b) 1970 a :=
    findYear_fuel_irrel a (max a b) 1970 a (Nat.le_refl a) (Nat.le_max_left a b)
  have hb : findYear b 1970 b = findYear (max a b) 1970 b :=
    findYear_fuel_irrel b (max a b) 1970 b (Nat.le_refl b) (Nat.le_max_right a b)
  unfold daysToYMD at h
  simp only at h
  have hy : (findYear a 1970 a).1 = (findYear b 1970 b).1 := congrArg (·.1) h
  have hm : (findMonth 12 1 (isLeap (findYear a 1970 a).1) (findYear a 1970 a).2).1
      = (findMonth 12 1 (isLeap (findYear b 1970 b).1) (findYear b 1970 b).2).1 :=
    congrArg (·.2.1) h
  have hd : (findMonth 12 1 (isLeap (findYear a 1970 a).1) (findYear a 1970 a).2).2
      = (findMonth 12 1 (isLeap (findYear b 1970 b).1) (findYear b 1970 b).2).2 := by
    have := congrArg (·.2.2) h
    simp only at this
    omega
  rw [hy] at hm hd
  have hpair : findMonth 12 1 (isLeap (findYear b 1970 b).1) (findYear a 1970 a).2
      = findMonth 12 1 (isLeap (findYear b 1970 b).1) (findYear b 1970 b).2 :=
    Prod.ext hm hd
  have hsnd : (findYear a 1970 a).2 = (findYear b 1970 b).2 :=
    findMonth_inj 12 1 (isLeap (findYear b 1970 b).1) _ _ hpair
  have hyr : findYear (max a b) 1970 a = findYear (max a b) 1970 b := by
    rw [← ha, ← hb]
    exact Prod.ext (by rw [hy]) hsnd
  exact findYear_inj (max a b) 1970 a b hyr

theorem natDigitsAux_length_le (f : Nat) :
    ∀ n w, n < 10 ^ w → 1 ≤ w → n ≤ f → (natDigitsAux f n).length ≤ w := by
  induction f with
  | zero =>
    intro n w _ hw _
    simp [natDigitsAux]
    omega
  | succ f ih =>
    intro n w hn hw hf
    by_cases h10 : n < 10
    · simp [natDigitsAux, if_pos h10]
      omega
    · obtain ⟨w', rfl⟩ : ∃ w', w = w' + 1 := ⟨w - 1, by omega⟩
      have hw' : 1 ≤ w' := by
        by_contra hc
        have : w' = 0 := by omega
        subst this
        simp at hn
        omega
      have hdivlt : n / 10 < 10 ^ w' := by
        rw [pow_succ] at hn
        exact (Nat.div_lt_iff_lt_mul (by omega)).mpr hn
      have := ih (n / 10) w' hdivlt hw' (by omega)
      simp [natDigitsAux, if_neg h10, List.length_append]
      omega

theorem zpad_length {w n : Nat} (h : n < 10 ^ w) (hw : 1 ≤ w) : (zpad w n).length = w := by
  have := natDigitsAux_length_le n n w h hw (Nat.le_refl n)
  simp [zpad, List.length_append, List.length_replicate, natDigits]
  omega

theorem zpad2_length {n : Nat} (h : n < 100) : (zpad 2 n).length = 2 :=
  zpad_length (by norm_num; omega) (by omega)

theorem zpad2_split {a b : Nat} {xs ys : List Char} (ha : a < 100) (hb : b < 100)
    (h : zpad 2 a ++ xs = zpad 2 b ++ ys) : a = b ∧ xs = ys := by
  have hl : (zpad 2 a).length = (zpad 2 b).length := by
    rw [zpad2_length ha, zpad2_length hb]
  obtain ⟨h1, h2⟩ := List.append_inj h hl
  exact ⟨zpad_inj h1, h2⟩

/-- Characters of `datetime.fromtimestamp(t).strftime('%Y-%m-%d_%H-%M-%S')`
for a Unix timestamp `t` (fixed UTC offset; the format string is the one used
by both upload pipelines). -/
def fmtList (t : Nat) : List Char :=
  let sod := t % 86400
  let ymd := daysToYMD (t / 86400)
  zpad 4 ymd.1 ++ '-' ::
    (zpad 2 ymd.2.1 ++ '-' ::
      (zpad 2 ymd.2.2 ++ '_' ::
        (zpad 2 (sod / 3600) ++ '-' ::
          (zpad 2 (sod % 3600 / 60) ++ '-' :: zpad 2 (sod % 60)))))

/-- String form of the timestamp suffix used in duplicate file names. -/
def fmtTimestamp (t : Nat) : String := ⟨fmtList t⟩

theorem daysToYMD_month_lt (d : Nat) : (daysToYMD d).2.1 < 100 := by
  unfold daysToYMD
  simp only
  have := findMonth_fst_le 12 1 (isLeap (findYear d 1970 d).1) (findYear d 1970 d).2
  omega

theorem daysToYMD_day_lt (d : Nat) : (daysToYMD d).2.2 < 100 := by
  unfold daysToYMD
  simp only
  have hdoy := findYear_snd_lt d 1970 d (Nat.le_refl d)
  have := findMonth_day_small _ hdoy (isLeap (findYear d 1970 d).1)
  omega

theorem fmt_tail_length {m d hh mi s : Nat} (hm : m < 100) (hd : d < 100)
    (hh' : hh < 100) (hmi : mi < 100) (hs : s < 100) :
    ('-' :: (zpad 2 m ++ '-' :: (zpad 2 d ++ '_' ::
      (zpad 2 hh ++ '-' :: (zpad 2 mi ++ '-' :: zpad 2 s))))).length = 15 := by
  simp [List.length_append, zpad2_length hm, zpad2_length hd, zpad2_length hh',
    zpad2_length hmi, zpad2_length hs]

theorem fmtList_inj {t₁ t₂ : Nat} (h : fmtList t₁ = fmtList t₂) : t₁ = t₂ := by
  unfold fmtList at h
  simp only at h
  have hm₁ := daysToYMD_month_lt (t₁ / 86400)
  have hm₂ := daysToYMD_month_lt (t₂ / 86400)
  have hd₁ := daysToYMD_day_lt (t₁ / 86400)
  have hd₂ := daysToYMD_day_lt (t₂ / 86400)
  have hh₁ : t₁ % 86400 / 3600 < 100 := by omega
  have hh₂ : t₂ % 86400 / 3600 < 100 := by omega
  have hmi₁ : t₁ % 86400 % 3600 / 60 < 100 := by omega
  have hmi₂ : t₂ % 86400 % 3600 / 60 < 100 := by omega
  have hs₁ : t₁ % 86400 % 60 < 100 := by omega
  have hs₂ : t₂ % 86400 % 60 < 100 := by omega
  obtain ⟨hyear, htail⟩ := List.append_inj' h (by
    rw [fmt_tail_length hm₁ hd₁ hh₁ hmi₁ hs₁, fmt_tail_length hm₂ hd₂ hh₂ hmi₂ hs₂])
  have hy : (daysToYMD (t₁ / 86400)).1 = (daysToYMD (t₂ / 86400)).1 := zpad_inj hyear
  have htail' := List.cons.inj htail
  obtain ⟨hmth, htail2⟩ := zpad2_split hm₁ hm₂ htail'.2
  have htail2' := List.cons.inj htail2
  obtain ⟨hday, htail3⟩ := zpad2_split hd₁ hd₂ htail2'.2
  have htail3' := List.cons.inj htail3
  obtain ⟨hhour, htail4⟩ := zpad2_split hh₁ hh₂ htail3'.2
  have htail4' := List.cons.inj htail4
  obtain ⟨hmin, htail5⟩ := zpad2_split hmi₁ hmi₂ htail4'.2
  have htail5' := List.cons.inj htail5
  have hsec : t₁ % 86400 % 60 = t₂ % 86400 % 60 := zpad_inj htail5'.2
  have hymd : daysToYMD (t₁ / 86400) = daysToYMD (t₂ / 86400) := by
    exact Prod.ext hy (Prod.ext hmth hday)
  have hdays := daysToYMD_inj hymd
  omega

theorem fmtTimestamp_inj {t₁ t₂ : Nat} (h : fmtTimestamp t₁ = fmtTimestamp t₂) : t₁ = t₂ :=
  fmtList_inj (congrArg String.data h)

/-- String form of Python `str(n)` for a non-negative integer. -/
def natToString (n : Nat) : String := ⟨natDigits n⟩

/-- Photo record produced by `get_profile_photos`: the tuple
`(likes, date, url)` of `main.py`. -/
structure Photo where
  likes : Nat
  date : Nat
  url : String
deriving DecidableEq

/-- Like-count frequency base list: `likes_counts = [photo[0] for photo in photos]`
(built identically in both pipelines). -/
def likesCounts (photos : List Photo) : List Nat := photos.map Photo.likes

/-- File name resolution of `save_photos_to_yandex_disk` (lines 196-200):
`image_name = f"{likes}_likes.jpg"`, overwritten with the timestamped form when
`likes_counts.count(likes) != 1`. -/
def yandexImageName (counts : List Nat) (likes date : Nat) : String :=
  if counts.count likes ≠ 1 then
    natToString likes ++ "_likes__" ++ fmtTimestamp date ++ ".jpg"
  else
    natToString likes ++ "_likes.jpg"

/-- File name resolution of `save_photos_to_google_drive` (lines 265-268),
which instead tests `likes_counts.count(likes) > 1`. -/
def googleImageName (counts : List Nat) (likes date : Nat) : String :=
  if counts.count likes > 1 then
    natToString likes ++ "_likes__" ++ fmtTimestamp date ++ ".jpg"
  else
    natToString likes ++ "_likes.jpg"

/-- Substring test on character lists: model of Python's `needle in hay`.
Checks whether `needle` is a prefix of some suffix of `hay`. -/
def containsSub (needle : List Char) : List Char → Bool
  | [] => needle.isEmpty
  | c :: rest => needle.isPrefixOf (c :: rest) || containsSub needle rest

/-- Size variant of a photo in the VK API response: fields `type` and `url`. -/
structure ApiSize where
  type : String
  url : String
deriving DecidableEq

/-- Photo item of the VK API response used by `get_profile_photos`:
`likes['count']`, `date` and the list of `sizes`. -/
structure ApiPhoto where
  likes : Nat
  date : Nat
  sizes : List ApiSize
deriving DecidableEq

/-- Model of `VkApiClient.get_profile_photos` (lines 160-165): the nested loop
`for image_info in image_list: for size in image_info['sizes']:
if self.photo_type in size['type']: profile_photos.append(...)`. -/
def get_profile_photos (photo_type : String) (image_list : List ApiPhoto) : List Photo :=
  image_list.flatMap fun image_info =>
    (image_info.sizes.filter fun size => containsSub photo_type.data size.type.data).map
      fun size => { likes := image_info.likes, date := image_info.date, url := size.url }

/-- User entry of a `users.get` response. -/
structure VkUser where
  first_name : String
  last_name : String
  id : Nat
deriving DecidableEq

/-- Failure conditions relevant to `status_info`: the raw `IndexError` that
Python raises when `[0]` is applied to an empty list, versus the clear
user-not-found condition the specification calls for. -/
inductive PyError where
  | indexError
  | userNotFound
deriving DecidableEq

/-- Model of `VkApiClient.status_info` (lines 62-68): indexes
`response.get('response', [])[0]` and builds `{f"{first_name} {last_name}": id}`.
On an empty result list the indexing raises `IndexError`. -/
def status_info (response : List VkUser) : Except PyError (String × Nat) :=
  match response with
  | [] => .error .indexError
  | u :: _ => .ok (u.first_name ++ " " ++ u.last_name, u.id)

/-- Manifest entry `{'file_name': image_name, 'size': self.photo_type}`
appended by both pipelines. -/
structure ManifestEntry where
  file_name : String
  size : String
deriving DecidableEq

/-- Result of a run of `save_photos_to_yandex_disk`: whether the backup folder
was created, the upload requests issued (`path`, source `url`), and the
manifest written to `photo_info_ya_disk.json`. -/
structure YandexRun where
  folderCreated : Bool
  uploadRequests : List (String × String)
  manifest : List ManifestEntry
deriving DecidableEq

/-- Loop body of `save_photos_to_yandex_disk` (lines 194-206): resolves the
file name, issues the upload POST (whose response the code never inspects),
and appends the upload request and the manifest entry. -/
def yandexLoopStep (photo_type : String) (counts : List Nat)
    (upload : String → String → Nat)
    (acc : List (String × String) × List ManifestEntry) (p : Photo) :
    List (String × String) × List ManifestEntry :=
  let image_name := yandexImageName counts p.likes p.date
  let resp := upload ("backup_photos/" ++ image_name) p.url
  let _ := resp
  (acc.1 ++ [("backup_photos/" ++ image_name, p.url)],
   acc.2 ++ [{ file_name := image_name, size := photo_type }])

/-- Model of `save_photos_to_yandex_disk` (lines 182-209). `probeStatus` is the
HTTP status of the GET probe on the folder; the folder is created only when it
is 404. `upload` is the provider's response to each POST, which the code never
inspects. The loop appends one upload request and one manifest entry per photo. -/
def save_photos_to_yandex_disk (photo_type : String) (photos : List Photo)
    (probeStatus : Nat) (upload : String → String → Nat) : YandexRun :=
  let counts := likesCounts photos
  let result := photos.foldl (yandexLoopStep photo_type counts upload) ([], [])
  { folderCreated := probeStatus == 404
    uploadRequests := result.1
    manifest := result.2 }

/-- Result of a run of `save_photos_to_google_drive`: whether the backup folder
was created, the folder id used, and the manifest written to
`photo_info_g_drive.json`. -/
structure GoogleRun where
  folderCreated : Bool
  folderId : String
  manifest : List ManifestEntry
deriving DecidableEq

/-- Loop body of `save_photos_to_google_drive` (lines 262-286): resolves the
file name, downloads the photo bytes, uploads them (results never inspected
when building the manifest), and appends the manifest entry. -/
def googleLoopStep (photo_type : String) (counts : List Nat) (folder_id : String)
    (download : String → List Nat) (upload : String → String → List Nat → String)
    (acc : List ManifestEntry) (p : Photo) : List ManifestEntry :=
  let image_name := googleImageName counts p.likes p.date
  let content := download p.url
  let created_file := upload image_name folder_id content
  let _ := created_file
  acc ++ [{ file_name := image_name, size := photo_type }]

/-- Model of `save_photos_to_google_drive` (lines 227-289). `existingFolders`
is the id list returned by the folder query (`folders`); if empty a folder is
created with id `newFolderId`; then the loop body above runs per photo. -/
def save_photos_to_google_drive (photo_type : String) (photos : List Photo)
    (existingFolders : List String) (newFolderId : String)
    (download : String → List Nat) (upload : String → String → List Nat → String) :
    GoogleRun :=
  let folder_id := match existingFolders with
    | [] => newFolderId
    | f :: _ => f
  let counts := likesCounts photos
  let manifest := photos.foldl (googleLoopStep photo_type counts folder_id download upload) []
  { folderCreated := existingFolders.isEmpty
    folderId := folder_id
    manifest := manifest }

/-- JSON values, as far as the manifest files use them
(`json.dump(photo_info_json, json_file, indent=4)`). -/
inductive Json where
  | str : String → Json
  | arr : List Json → Json
  | obj : List (String × Json) → Json

/-- Serialisation of the manifest as both pipelines write it: a JSON array of
objects `{'file_name': ..., 'size': ...}`, in list order. -/
def manifestToJson (m : List ManifestEntry) : Json :=
  .arr (m.map fun e => .obj [("file_name", .str e.file_name), ("size", .str e.size)])

/-- Reads one manifest entry back from its JSON object form. -/
def entryOfJson : Json → Option ManifestEntry
  | .obj [("file_name", .str f), ("size", .str s)] => some { file_name := f, size := s }
  | _ => none

/-- Reads a list of manifest entries back from a list of JSON values. -/
def entriesOfJson : List Json → Option (List ManifestEntry)
  | [] => some []
  | j :: js =>
    match entryOfJson j, entriesOfJson js with
    | some e, some es => some (e :: es)
    | _, _ => none

/-- Parses a whole manifest file (model of `json.load` on a written manifest). -/
def manifestOfJson : Json → Option (List ManifestEntry)
  | .arr js => entriesOfJson js
  | _ => none

/-- Model of Python `str.replace` on character lists, non-empty pattern case:
scans left to right, replacing each non-overlapping occurrence. Fuel-based; the
fuel is instantiated with the length of the subject string, which is sufficient
because every step consumes at least one character. -/
def replaceGo (t r : List Char) : Nat → List Char → List Char
  | _, [] => []
  | 0, s => s
  | f + 1, c :: cs =>
    if t.isPrefixOf (c :: cs) then r ++ replaceGo t r f ((c :: cs).drop t.length)
    else c :: replaceGo t r f cs

/-- Model of Python `str.replace`: for an empty pattern Python interleaves the
replacement around every character; otherwise all occurrences are replaced. -/
def pyReplace (s t r : List Char) : List Char :=
  if t.isEmpty then r ++ s.flatMap (fun c => c :: r)
  else replaceGo t r s.length s

/-- Model of `VkApiClient.replase_status` (lines 110-125): reads the status,
applies `str.replace`, and returns the text written back by `set_status`. -/
def replase_status (status target replace_string : String) : String :=
  ⟨pyReplace status.data target.data replace_string.data⟩

/-- Model of `file.readline()`: returns the first line including its trailing
newline character, plus the remaining content. -/
def readLine : List Char → List Char × List Char
  | [] => ([], [])
  | c :: cs =>
    if c = '\n' then ([c], cs)
    else
      let rest := readLine cs
      (c :: rest.1, rest.2)

/-- Model of the module-level secrets loading (lines 292-295): three successive
`readline()` calls on `api.txt` yielding `TOKEN_VK`, `USER_ID`, `TOKEN_YA_DISK`. -/
def loadSecrets (content : List Char) : List Char × List Char × List Char :=
  let r1 := readLine content
  let r2 := readLine r1.2
  let r3 := readLine r2.2
  (r1.1, r2.1, r3.1)

theorem natDigitsAux_isDigit (f : Nat) :
    ∀ n c, c ∈ natDigitsAux f n → c.isDigit = true := by
  induction f with
  | zero =>
    intro n c hc
    simp [natDigitsAux] at hc
    subst hc
    have : n % 10 < 10 := Nat.mod_lt _ (by omega)
    interval_cases h : n % 10 <;> decide
  | succ f ih =>
    intro n c hc
    by_cases h10 : n < 10
    · simp [natDigitsAux, if_pos h10] at hc
      subst hc
      interval_cases n <;> decide
    · simp [natDigitsAux, if_neg h10] at hc
      rcases hc with hc | hc
      · exact ih (n / 10) c hc
      · subst hc
        have : n % 10 < 10 := Nat.mod_lt _ (by omega)
        interval_cases h : n % 10 <;> decide

theorem natDigits_isDigit {n : Nat} {c : Char} (hc : c ∈ natDigits n) :
    c.isDigit = true :=
  natDigitsAux_isDigit n n c hc

theorem takeWhile_append_stop {p : Char → Bool} :
    ∀ (l : List Char) (c : Char) (r : List Char), (∀ x ∈ l, p x = true) → p c = false →
      (l ++ c :: r).takeWhile p = l ∧ (l ++ c :: r).dropWhile p = c :: r := by
  intro l
  induction l with
  | nil =>
    intro c r _ hc
    simp [List.takeWhile, List.dropWhile, hc]
  | cons a l ih =>
    intro c r hl hc
    have ha : p a = true := hl a (List.mem_cons_self a l)
    have := ih c r (fun x hx => hl x (List.mem_cons_of_mem a hx)) hc
    simp [List.takeWhile, List.dropWhile, ha, this.1, this.2]

theorem digits_marker_inj {a b : Nat} {xs ys : List Char}
    (h : natDigits a ++ '_' :: xs = natDigits b ++ '_' :: ys) : a = b ∧ xs = ys := by
  have hu : ('_' : Char).isDigit = false := by decide
  have h₁ := takeWhile_append_stop (natDigits a) '_' xs
    (fun x hx => natDigits_isDigit hx) hu
  have h₂ := takeWhile_append_stop (natDigits b) '_' ys
    (fun x hx => natDigits_isDigit hx) hu
  have hta : natDigits a = natDigits b := by
    rw [← h₁.1, ← h₂.1, h]
  have hdr : ('_' :: xs : List Char) = '_' :: ys := by
    rw [← h₁.2, ← h₂.2, h]
  constructor
  · have ha := digitsVal_natDigits a
    rw [hta, digitsVal_natDigits] at ha
    omega
  · exact (List.cons.inj hdr).2

theorem foldl_pair_append {α β γ : Type} (f : α → β) (g : α → γ)
    (step : List β × List γ → α → List β × List γ)
    (hstep : ∀ acc p, step acc p = (acc.1 ++ [f p], acc.2 ++ [g p])) :
    ∀ (l : List α) (acc : List β × List γ),
      l.foldl step acc = (acc.1 ++ l.map f, acc.2 ++ l.map g) := by
  intro l
  induction l with
  | nil => intro acc; simp
  | cons a l ih =>
    intro acc
    rw [List.foldl_cons, hstep, ih]
    simp

theorem foldl_list_append {α γ : Type} (g : α → γ) (step : List γ → α → List γ)
    (hstep : ∀ acc p, step acc p = acc ++ [g p]) :
    ∀ (l : List α) (acc : List γ), l.foldl step acc = acc ++ l.map g := by
  intro l
  induction l with
  | nil => intro acc; simp
  | cons a l ih =>
    intro acc
    rw [List.foldl_cons, hstep, ih]
    simp

theorem containsSub_false_ne_nil {t s : List Char} (h : containsSub t s = false) :
    t ≠ [] := by
  intro ht
  subst ht
  cases s with
  | nil => simp [containsSub] at h
  | cons c cs => simp [containsSub, List.isPrefixOf] at h

theorem replaceGo_no_occurrence {t r : List Char} :
    ∀ (s : List Char) (f : Nat), containsSub t s = false → replaceGo t r f s = s := by
  intro s
  induction s with
  | nil =>
    intro f _
    cases f <;> rfl
  | cons c cs ih =>
    intro f h
    simp only [containsSub, Bool.or_eq_false_iff] at h
    cases f with
    | zero => rfl
    | succ f =>
      simp only [replaceGo, h.1, Bool.false_eq_true, if_false]
      rw [ih f h.2]

theorem pyReplace_no_occurrence {s t r : List Char} (h : containsSub t s = false) :
    pyReplace s t r = s := by
  have ht : t ≠ [] := containsSub_false_ne_nil h
  have hte : t.isEmpty = false := by
    cases t with
    | nil => exact absurd rfl ht
    | cons a t => rfl
  rw [pyReplace, hte]
  simp only [Bool.false_eq_true, if_false]
  exact replaceGo_no_occurrence s s.length h

theorem readLine_line : ∀ (a rest : List Char), '\n' ∉ a →
    readLine (a ++ '\n' :: rest) = (a ++ ['\n'], rest) := by
  intro a
  induction a with
  | nil => intro rest _; simp [readLine]
  | cons c a ih =>
    intro rest h
    have hc : ¬ c = '\n' := fun hc => h (hc ▸ List.mem_cons_self c a)
    have := ih rest (fun hm => h (List.mem_cons_of_mem c hm))
    simp [readLine, hc, this]

theorem entriesOfJson_map (m : List ManifestEntry) :
    entriesOfJson (m.map fun e =>
      Json.obj [("file_name", .str e.file_name), ("size", .str e.size)]) = some m := by
  induction m with
  | nil => rfl
  | cons e es ih => simp [entriesOfJson, entryOfJson, ih]

theorem timestamped_name_inj {a b t₁ t₂ : Nat}
    (h : natToString a ++ "_likes__" ++ fmtTimestamp t₁ ++ ".jpg"
       = natToString b ++ "_likes__" ++ fmtTimestamp t₂ ++ ".jpg") :
    a = b ∧ t₁ = t₂ := by
  have hdata := congrArg String.data h
  simp only [String.data_append] at hdata
  have hshape : natDigits a ++ '_' ::
      ("likes__".data ++ (fmtList t₁ ++ ".jpg".data))
      = natDigits b ++ '_' :: ("likes__".data ++ (fmtList t₂ ++ ".jpg".data)) := by
    simpa [natToString, fmtTimestamp, List.append_assoc] using hdata
  obtain ⟨hab, hrest⟩ := digits_marker_inj hshape
  have hrest' : fmtList t₁ ++ ".jpg".data = fmtList t₂ ++ ".jpg".data :=
    List.append_cancel_left hrest
  have := List.append_inj' hrest' rfl
  exact ⟨hab, fmtList_inj this.1⟩

/-- C1: for every photo set in which all like counts are pairwise distinct, the
duplicate-name resolver of both the Yandex and the Google pipeline assigns every
photo the plain file name `<likes>_likes.jpg`, with no timestamp suffix. -/
theorem C1_all_distinct_plain_names (photos : List Photo) (p : Photo)
    (hnd : (likesCounts photos).Nodup) (hp : p ∈ photos) :
    yandexImageName (likesCounts photos) p.likes p.date
      = natToString p.likes ++ "_likes.jpg"
    ∧ googleImageName (likesCounts photos) p.likes p.date
      = natToString p.likes ++ "_likes.jpg" := by
  have hmem : p.likes ∈ likesCounts photos := List.mem_map_of_mem Photo.likes hp
  have h1 : (likesCounts photos).count p.likes = 1 := List.count_eq_one_of_mem hnd hmem
  constructor
  · simp [yandexImageName, h1]
  · simp [googleImageName, h1]

theorem C1_witness :
    (likesCounts [⟨1, 0, "a"⟩, ⟨2, 5, "b"⟩]).Nodup
    ∧ (⟨1, 0, "a"⟩ : Photo) ∈ ([⟨1, 0, "a"⟩, ⟨2, 5, "b"⟩] : List Photo)
    ∧ (yandexImageName (likesCounts [⟨1, 0, "a"⟩, ⟨2, 5, "b"⟩]) 1 0
        = natToString 1 ++ "_likes.jpg"
      ∧ googleImageName (likesCounts [⟨1, 0, "a"⟩, ⟨2, 5, "b"⟩]) 1 0
        = natToString 1 ++ "_likes.jpg") :=
  ⟨by decide, by decide,
    C1_all_distinct_plain_names [⟨1, 0, "a"⟩, ⟨2, 5, "b"⟩] ⟨1, 0, "a"⟩
      (by decide) (by decide)⟩

/-- C2: in every photo set containing at least two photos with the same like
count, each such photo's resolved file name is
`<likes>_likes__<YYYY-MM-DD_HH-MM-SS>.jpg` with its own upload time, and two
such photos with distinct upload timestamps receive distinct file names (in
both pipeline variants). -/
theorem C2_shared_likes_timestamped (photos : List Photo) (p q : Photo)
    (hp : p ∈ photos) (hq : q ∈ photos)
    (hcp : 2 ≤ (likesCounts photos).count p.likes)
    (hcq : 2 ≤ (likesCounts photos).count q.likes) :
    (yandexImageName (likesCounts photos) p.likes p.date
        = natToString p.likes ++ "_likes__" ++ fmtTimestamp p.date ++ ".jpg"
      ∧ googleImageName (likesCounts photos) p.likes p.date
        = natToString p.likes ++ "_likes__" ++ fmtTimestamp p.date ++ ".jpg")
    ∧ (p.date ≠ q.date →
        yandexImageName (likesCounts photos) p.likes p.date
          ≠ yandexImageName (likesCounts photos) q.likes q.date
        ∧ googleImageName (likesCounts photos) p.likes p.date
          ≠ googleImageName (likesCounts photos) q.likes q.date) := by
  have hp1 : (likesCounts photos).count p.likes ≠ 1 := by omega
  have hq1 : (likesCounts photos).count q.likes ≠ 1 := by omega
  have hpg : (likesCounts photos).count p.likes > 1 := by omega
  have hqg : (likesCounts photos).count q.likes > 1 := by omega
  have hyp : yandexImageName (likesCounts photos) p.likes p.date
      = natToString p.likes ++ "_likes__" ++ fmtTimestamp p.date ++ ".jpg" := by
    simp [yandexImageName, hp1]
  have hyq : yandexImageName (likesCounts photos) q.likes q.date
      = natToString q.likes ++ "_likes__" ++ fmtTimestamp q.date ++ ".jpg" := by
    simp [yandexImageName, hq1]
  have hgp : googleImageName (likesCounts photos) p.likes p.date
      = natToString p.likes ++ "_likes__" ++ fmtTimestamp p.date ++ ".jpg" := by
    simp [googleImageName, hpg]
  have hgq : googleImageName (likesCounts photos) q.likes q.date
      = natToString q.likes ++ "_likes__" ++ fmtTimestamp q.date ++ ".jpg" := by
    simp [googleImageName, hqg]
  refine ⟨⟨hyp, hgp⟩, fun hdate => ⟨?_, ?_⟩⟩
  · rw [hyp, hyq]
    intro heq
    exact hdate (timestamped_name_inj heq).2
  · rw [hgp, hgq]
    intro heq
    exact hdate (timestamped_name_inj heq).2

theorem C2_witness :
    (⟨10, 0, "a"⟩ : Photo) ∈ ([⟨10, 0, "a"⟩, ⟨10, 1, "b"⟩, ⟨3, 2, "c"⟩] : List Photo)
    ∧ (⟨10, 1, "b"⟩ : Photo) ∈ ([⟨10, 0, "a"⟩, ⟨10, 1, "b"⟩, ⟨3, 2, "c"⟩] : List Photo)
    ∧ 2 ≤ (likesCounts [⟨10, 0, "a"⟩, ⟨10, 1, "b"⟩, ⟨3, 2, "c"⟩]).count 10
    ∧ ((yandexImageName (likesCounts [⟨10, 0, "a"⟩, ⟨10, 1, "b"⟩, ⟨3, 2, "c"⟩]) 10 0
          = natToString 10 ++ "_likes__" ++ fmtTimestamp 0 ++ ".jpg"
        ∧ googleImageName (likesCounts [⟨10, 0, "a"⟩, ⟨10, 1, "b"⟩, ⟨3, 2, "c"⟩]) 10 0
          = natToString 10 ++ "_likes__" ++ fmtTimestamp 0 ++ ".jpg")
      ∧ ((0 : Nat) ≠ 1 →
          yandexImageName (likesCounts [⟨10, 0, "a"⟩, ⟨10, 1, "b"⟩, ⟨3, 2, "c"⟩]) 10 0
            ≠ yandexImageName (likesCounts [⟨10, 0, "a"⟩, ⟨10, 1, "b"⟩, ⟨3, 2, "c"⟩]) 10 1
          ∧ googleImageName (likesCounts [⟨10, 0, "a"⟩, ⟨10, 1, "b"⟩, ⟨3, 2, "c"⟩]) 10 0
            ≠ googleImageName (likesCounts [⟨10, 0, "a"⟩, ⟨10, 1, "b"⟩, ⟨3, 2, "c"⟩]) 10 1)) :=
  ⟨by decide, by decide, by decide,
    C2_shared_likes_timestamped [⟨10, 0, "a"⟩, ⟨10, 1, "b"⟩, ⟨3, 2, "c"⟩]
      ⟨10, 0, "a"⟩ ⟨10, 1, "b"⟩ (by decide) (by decide) (by decide) (by decide)⟩

/-- C3: for every photo set, the Yandex-variant resolver (suffix when the
like-count frequency is not exactly one) and the Google-variant resolver
(suffix when it is strictly greater than one) assign identical file names to
every photo in the set, because a member photo's like count occurs at least
once in the frequency base list. -/
theorem C3_resolvers_agree (photos : List Photo) (p : Photo) (hp : p ∈ photos) :
    yandexImageName (likesCounts photos) p.likes p.date
      = googleImageName (likesCounts photos) p.likes p.date := by
  have hmem : p.likes ∈ likesCounts photos := List.mem_map_of_mem Photo.likes hp
  have hpos : 0 < (likesCounts photos).count p.likes := List.count_pos_iff.mpr hmem
  by_cases h1 : (likesCounts photos).count p.likes = 1
  · simp [yandexImageName, googleImageName, h1]
  · have hgt : (likesCounts photos).count p.likes > 1 := by omega
    simp [yandexImageName, googleImageName, h1, hgt]

theorem C3_witness :
    (⟨7, 3, "u"⟩ : Photo) ∈ ([⟨7, 3, "u"⟩, ⟨7, 4, "v"⟩] : List Photo)
    ∧ yandexImageName (likesCounts [⟨7, 3, "u"⟩, ⟨7, 4, "v"⟩]) 7 3
      = googleImageName (likesCounts [⟨7, 3, "u"⟩, ⟨7, 4, "v"⟩]) 7 3 :=
  ⟨by decide, C3_resolvers_agree [⟨7, 3, "u"⟩, ⟨7, 4, "v"⟩] ⟨7, 3, "u"⟩ (by decide)⟩

/-- C4 counterexample: a photo with two size variants whose type tags both
contain the configured substring yields two records, so the Photo-set length
differs from the number of photos with a matching variant, refuting the claim
as stated. -/
theorem C4_counterexample :
    ¬ ((get_profile_photos "z" [⟨5, 0, [⟨"z", "u1"⟩, ⟨"z", "u2"⟩]⟩]).length
        = (([⟨5, 0, [⟨"z", "u1"⟩, ⟨"z", "u2"⟩]⟩] : List ApiPhoto).countP
            fun img => img.sizes.any fun sz => containsSub "z".data sz.type.data)) := by
  decide

/-- C4 (amended): `get_profile_photos` produces one `(likes, date, url)` record
per matching size variant (so its length is the total number of matching
variants across photos, not the number of photos with a match), and a photo
with zero matching variants contributes no record and no error: removing it
from the input leaves the result unchanged. -/
theorem C4_amended_record_per_variant (photo_type : String) (image_list : List ApiPhoto) :
    (get_profile_photos photo_type image_list).length
      = (image_list.map fun img =>
          (img.sizes.filter fun sz => containsSub photo_type.data sz.type.data).length).sum
    ∧ ∀ (pre post : List ApiPhoto) (img : ApiPhoto),
        (img.sizes.filter fun sz => containsSub photo_type.data sz.type.data) = [] →
        get_profile_photos photo_type (pre ++ img :: post)
          = get_profile_photos photo_type (pre ++ post) := by
  constructor
  · rw [get_profile_photos, List.length_flatMap]
    congr 1
    exact List.map_congr_left fun img _ => by simp [List.length_map]
  · intro pre post img h
    simp [get_profile_photos, List.flatMap_append, List.flatMap_cons, h]

theorem C4_amended_witness :
    ((⟨7, 0, [⟨"s", "u"⟩]⟩ : ApiPhoto).sizes.filter
        fun sz => containsSub "z".data sz.type.data) = []
    ∧ get_profile_photos "z" ([] ++ (⟨7, 0, [⟨"s", "u"⟩]⟩ : ApiPhoto) :: [])
      = get_profile_photos "z" ([] ++ []) :=
  ⟨by decide,
    (C4_amended_record_per_variant "z" ([] ++ (⟨7, 0, [⟨"s", "u"⟩]⟩ : ApiPhoto) :: [])).2
      [] [] ⟨7, 0, [⟨"s", "u"⟩]⟩ (by decide)⟩

/-- C5: on a `users.get` response with an empty result list, `status_info`
fails with the raw `IndexError` of indexing `[0]` into an empty sequence, not
with the clear user-not-found condition the specification requires. -/
theorem C5_empty_lookup_index_error :
    status_info [] = .error .indexError ∧ status_info [] ≠ .error .userNotFound := by
  refine ⟨rfl, fun h => ?_⟩
  simp [status_info] at h

/-- C6: in both pipelines, the persisted manifest contains exactly one entry
per photo of the set, in set order, of the form
`{file_name := resolved name, size := configured rendition tag}`, for every
possible outcome of the provider-side download/upload interactions. -/
theorem C6_manifest_one_entry_per_photo (photo_type : String) (photos : List Photo)
    (probeStatus : Nat) (upload : String → String → Nat)
    (existingFolders : List String) (newFolderId : String)
    (download : String → List Nat) (gupload : String → String → List Nat → String) :
    (save_photos_to_yandex_disk photo_type photos probeStatus upload).manifest
      = photos.map (fun p =>
          { file_name := yandexImageName (likesCounts photos) p.likes p.date
            size := photo_type })
    ∧ (save_photos_to_google_drive photo_type photos existingFolders newFolderId
        download gupload).manifest
      = photos.map (fun p =>
          { file_name := googleImageName (likesCounts photos) p.likes p.date
            size := photo_type }) := by
  constructor
  · show (photos.foldl (yandexLoopStep photo_type (likesCounts photos) upload) ([], [])).2 = _
    rw [foldl_pair_append
      (fun p : Photo =>
        ("backup_photos/" ++ yandexImageName (likesCounts photos) p.likes p.date, p.url))
      (fun p : Photo =>
        ({ file_name := yandexImageName (likesCounts photos) p.likes p.date
           size := photo_type } : ManifestEntry))
      (yandexLoopStep photo_type (likesCounts photos) upload) (fun acc p => rfl)]
    simp
  · show (photos.foldl (googleLoopStep photo_type (likesCounts photos)
        (match existingFolders with | [] => newFolderId | f :: _ => f)
        download gupload) []) = _
    rw [foldl_list_append
      (fun p : Photo =>
        ({ file_name := googleImageName (likesCounts photos) p.likes p.date
           size := photo_type } : ManifestEntry))
      (googleLoopStep photo_type (likesCounts photos)
        (match existingFolders with | [] => newFolderId | f :: _ => f)
        download gupload) (fun acc p => rfl)]
    simp

/-- C7: serialising a manifest as the pipelines do (a JSON array of
`{file_name, size}` objects, in order) and parsing it back yields the same
ordered sequence of entries. -/
theorem C7_manifest_roundtrip (m : List ManifestEntry) :
    manifestOfJson (manifestToJson m) = some m := by
  rw [manifestToJson, manifestOfJson]
  exact entriesOfJson_map m

/-- C8: when the target string does not occur in the current status text,
`replase_status` writes back the status unchanged. -/
theorem C8_replace_absent_is_noop (status target replace_string : String)
    (h : containsSub target.data status.data = false) :
    replase_status status target replace_string = status := by
  rw [replase_status]
  have := pyReplace_no_occurrence (r := replace_string.data) h
  rw [this]

theorem C8_witness :
    containsSub "xyz".data "hello world".data = false
    ∧ replase_status "hello world" "xyz" "abc" = "hello world" :=
  ⟨by decide, C8_replace_absent_is_noop "hello world" "xyz" "abc" (by decide)⟩

/-- C9: loading a three-line secrets file keeps the trailing newline on the
user identifier: the loaded value is the second line plus `\n`, not the bare
second line. -/
theorem C9_user_id_keeps_newline (ltok luid lya : List Char)
    (h1 : '\n' ∉ ltok) (h2 : '\n' ∉ luid) :
    (loadSecrets (ltok ++ '\n' :: (luid ++ '\n' :: (lya ++ ['\n'])))).2.1
      = luid ++ ['\n']
    ∧ (loadSecrets (ltok ++ '\n' :: (luid ++ '\n' :: (lya ++ ['\n'])))).2.1 ≠ luid := by
  have hr1 := readLine_line ltok (luid ++ '\n' :: (lya ++ ['\n'])) h1
  have hr2 := readLine_line luid (lya ++ ['\n']) h2
  have hval : (loadSecrets (ltok ++ '\n' :: (luid ++ '\n' :: (lya ++ ['\n'])))).2.1
      = luid ++ ['\n'] := by
    rw [loadSecrets]
    simp only [hr1, hr2]
  refine ⟨hval, ?_⟩
  rw [hval]
  intro heq
  have := congrArg List.length heq
  simp at this

/-- Witness for C9 at the specification's example file
`"tok\n123\nytok\n"`. -/
theorem C9_witness :
    '\n' ∉ "tok".data ∧ '\n' ∉ "123".data
    ∧ ((loadSecrets ("tok".data ++ '\n' :: ("123".data ++ '\n' :: ("ytok".data ++ ['\n'])))).2.1
        = "123".data ++ ['\n']
      ∧ (loadSecrets ("tok".data ++ '\n' :: ("123".data ++ '\n' :: ("ytok".data ++ ['\n'])))).2.1
        ≠ "123".data) :=
  ⟨by decide, by decide,
    C9_user_id_keeps_newline "tok".data "123".data "ytok".data (by decide) (by decide)⟩

/-- C10: in the Yandex pipeline's folder probe, exactly an HTTP 404 status
triggers creation of the backup folder; for every other status the pipeline
does not create the folder and still proceeds to issue all per-photo upload
requests. -/
theorem C10_only_404_creates_folder (photo_type : String) (photos : List Photo)
    (probeStatus : Nat) (upload : String → String → Nat) :
    (save_photos_to_yandex_disk photo_type photos probeStatus upload).folderCreated
      = (probeStatus == 404)
    ∧ (save_photos_to_yandex_disk photo_type photos probeStatus upload).uploadRequests
      = photos.map (fun p =>
          ("backup_photos/" ++ yandexImageName (likesCounts photos) p.likes p.date, p.url)) := by
  constructor
  · rfl
  · show (photos.foldl (yandexLoopStep photo_type (likesCounts photos) upload) ([], [])).1 = _
    rw [foldl_pair_append
      (fun p : Photo =>
        ("backup_photos/" ++ yandexImageName (likesCounts photos) p.likes p.date, p.url))
      (fun p : Photo =>
        ({ file_name := yandexImageName (likesCounts photos) p.likes p.date
           size := photo_type } : ManifestEntry))
      (yandexLoopStep photo_type (likesCounts photos) upload) (fun acc p => rfl)]
    simp
